import Mathlib

/-!
Shallow embedding of `simple_copier_server.py` (MT5 trade copier server,
"Final Fix v6.0"): the in-memory signal queues, the slave registry, the
per-slave processed-signal sets, and the four state-mutating handlers
`upload_signal`, `slave_poll`, `register_slave`, `clear_signals`, plus one
pass of the background sweeper `cleanup_old_signals`.

Modelling conventions:
* instants are naturals counting milliseconds (the code's `datetime.now()`
  and `int(datetime.now().timestamp() * 1000)` collapse to one `nowMs`
  argument: an injectable clock);
* the three module-level dicts become total functions returning `Option`
  (`none` = key absent);
* Python truthiness of the string fields checked with `if not x` is the
  predicate `falsy` below (absent or empty string);
* a Python `set` of signal ids is carried as the `List String` of its
  elements in insertion order; the order in which `list(some_set)`
  enumerates a set is NOT insertion order and is not specified, so
  `slave_poll` takes the enumeration used by its trimming step as an
  explicit argument `enum : List String → List String`.
-/

set_option autoImplicit false
set_option maxRecDepth 10000

/-- One stored trade signal: the uploaded fields plus the
`server_timestamp` (ms) and `signal_id` stamped by `upload_signal`.
Extra action-specific JSON fields ride along in `payload`. -/
structure Signal where
  master_id : String
  action : String
  master_ticket : Nat
  symbol : Option String
  payload : List (String × String)
  server_timestamp : Nat
  signal_id : String
deriving DecidableEq

/-- One slave registration record (`registered_at`, `last_poll`), in ms. -/
structure SlaveInfo where
  registered_at : Nat
  last_poll : Nat
deriving DecidableEq

/-- The JSON body of an `/upload_signal` request; `none` = field absent. -/
structure UploadRequest where
  master_id : Option String
  action : Option String
  master_ticket : Option Nat
  symbol : Option String
  payload : List (String × String)
deriving DecidableEq

/-- Outcome of `/upload_signal`: a 400 rejection, an INIT_TEST/HEARTBEAT
acknowledgement, or acceptance carrying the stamped signal id. -/
inductive UploadResult where
  | error (msg : String)
  | ack (action : String)
  | received (signal_id : String)
deriving DecidableEq

/-- Outcome of `/slave_poll`: a 400 rejection, or the `signals` list of the
response (zero or one signal). -/
inductive PollResult where
  | error (msg : String)
  | ok (signals : List Signal)
deriving DecidableEq

/-- The module-level mutable state: `signals_queue`, `slaves`,
`slave_processed_signals`. -/
structure ServerState where
  signals_queue : String → Option (List Signal)
  slaves : String → String → Option SlaveInfo
  slave_processed : String → Option (List String)

/-- State at process start: every dict empty. -/
def initialState : ServerState :=
  { signals_queue := fun _ => none
    slaves := fun _ _ => none
    slave_processed := fun _ => none }

/-- Python truthiness test `not x` for an optional string field: true when
the field is absent or the empty string. -/
def falsy (o : Option String) : Prop := o = none ∨ o = some ""

instance (o : Option String) : Decidable (falsy o) := by
  unfold falsy; infer_instance

/-- The `valid_actions` list of `upload_signal`. -/
def valid_actions : List String :=
  ["NEW_TRADE", "NEW_PENDING", "MODIFY_TRADE", "MODIFY_PENDING",
   "CLOSE_TRADE", "DELETE_ORDER", "INIT_TEST", "HEARTBEAT"]

/-- Build the stored signal: stamp `server_timestamp` and the id
`f"{master_ticket}_{action}_{now-in-ms}"`. -/
def mkSignal (master_id action : String) (master_ticket : Nat)
    (symbol : Option String) (payload : List (String × String))
    (nowMs : Nat) : Signal :=
  { master_id := master_id
    action := action
    master_ticket := master_ticket
    symbol := symbol
    payload := payload
    server_timestamp := nowMs
    signal_id := Nat.repr master_ticket ++ "_" ++ action ++ "_" ++ Nat.repr nowMs }

/-- The 50-entry cap `signals_queue[master_id][-50:]`, applied only when the
queue holds more than 50 entries (drops from the front, oldest first). -/
def cap50 (q : List Signal) : List Signal :=
  if q.length > 50 then q.drop (q.length - 50) else q

/-- Point update of the `signals_queue` dict. -/
def setQueue (st : ServerState) (m : String) (q : List Signal) : ServerState :=
  { st with signals_queue := fun m' => if m' = m then some q else st.signals_queue m' }

/-- Point update of the `slaves` dict. -/
def setSlave (st : ServerState) (m s : String) (info : SlaveInfo) : ServerState :=
  { st with slaves := fun m' s' =>
      if m' = m ∧ s' = s then some info else st.slaves m' s' }

/-- Point update of the `slave_processed_signals` dict. -/
def setProcessed (st : ServerState) (s : String) (tr : List String) : ServerState :=
  { st with slave_processed := fun s' => if s' = s then some tr else st.slave_processed s' }

/-- Handler `upload_signal` (POST /upload_signal): validation, the
INIT_TEST/HEARTBEAT acknowledgement, the three insertion policies keyed on
`action`, and the 50-entry cap. -/
def upload_signal (st : ServerState) (nowMs : Nat) (data : UploadRequest) :
    UploadResult × ServerState :=
  if falsy data.master_id ∨ falsy data.action ∨ data.master_ticket = none then
    (.error "Missing master_id, action, or master_ticket", st)
  else
    let master_id := data.master_id.getD ""
    let action := data.action.getD ""
    let master_ticket := data.master_ticket.getD 0
    if action ∉ valid_actions then
      (.error ("Invalid action: " ++ action), st)
    else if action ∉ ["DELETE_ORDER", "INIT_TEST", "HEARTBEAT"] ∧ data.symbol = none then
      (.error ("Missing symbol for action " ++ action), st)
    else if action ∈ ["INIT_TEST", "HEARTBEAT"] then
      (.ack action, st)
    else
      let sig := mkSignal master_id action master_ticket data.symbol data.payload nowMs
      let q0 := (st.signals_queue master_id).getD []
      let q1 :=
        if action ∈ ["MODIFY_TRADE", "MODIFY_PENDING"] then
          q0 ++ [sig]
        else if action ∈ ["DELETE_ORDER", "CLOSE_TRADE"] then
          (q0.filter (fun s => decide (s.master_ticket ≠ master_ticket))) ++ [sig]
        else
          if q0.any (fun s =>
              decide (s.master_ticket = master_ticket ∧ s.action = action ∧
                s.symbol = data.symbol)) then
            q0
          else
            q0 ++ [sig]
      (.received sig.signal_id, setQueue st master_id (cap50 q1))

/-- The sweeper's retention test: Python computes
`(now - server_timestamp).seconds < 600`, and `timedelta.seconds` is the
whole-seconds component after whole days, i.e. `(deltaMs / 1000) % 86400`. -/
def keepSignal (nowMs : Nat) (s : Signal) : Bool :=
  ((nowMs - s.server_timestamp) / 1000) % 86400 < 600

/-- One pass of the background sweeper `cleanup_old_signals`: filter every
queue by `keepSignal` and delete queues that become empty. -/
def cleanup_old_signals (nowMs : Nat) (st : ServerState) : ServerState :=
  { st with signals_queue := fun m =>
      match st.signals_queue m with
      | none => none
      | some q =>
          let q2 := q.filter (keepSignal nowMs)
          if q2.isEmpty then none else some q2 }

/-- The registration step of `slave_poll`: auto-register the pair if
absent, then unconditionally refresh `last_poll`. -/
def registerTouch (st : ServerState) (nowMs : Nat) (master_id slave_id : String) :
    ServerState :=
  match st.slaves master_id slave_id with
  | some info => setSlave st master_id slave_id { info with last_poll := nowMs }
  | none => setSlave st master_id slave_id { registered_at := nowMs, last_poll := nowMs }

/-- The FIFO scan of `slave_poll`: walk the queue in order; at the first
signal whose id is truthy and not yet processed, return it and append its
id to the processed list; otherwise return nothing. -/
def findAndMark : List Signal → List String → Option Signal × List String
  | [], tr => (none, tr)
  | s :: rest, tr =>
      if s.signal_id ≠ "" ∧ s.signal_id ∉ tr then (some s, tr ++ [s.signal_id])
      else findAndMark rest tr

/-- The 200-entry trim of the processed set:
`set(list(processed)[-200:])` when more than 200 ids are tracked. `enum`
is the unspecified order in which `list(...)` enumerates the set. -/
def trimTracker (enum : List String → List String) (tr : List String) : List String :=
  if tr.length > 200 then (enum tr).drop ((enum tr).length - 200) else tr

/-- Handler `slave_poll` (GET /slave_poll): validation, auto-registration
and `last_poll` refresh, then — only when the master has a queue — the FIFO
scan and the 200-entry trim of this slave's processed set. -/
def slave_poll (enum : List String → List String) (st : ServerState) (nowMs : Nat)
    (slave_id? master_id? : Option String) : PollResult × ServerState :=
  if falsy slave_id? ∨ falsy master_id? then
    (.error "Missing slave_id or master_id", st)
  else
    let slave_id := slave_id?.getD ""
    let master_id := master_id?.getD ""
    let st1 := registerTouch st nowMs master_id slave_id
    match st1.signals_queue master_id with
    | none => (.ok [], st1)
    | some q =>
        let r := findAndMark q ((st1.slave_processed slave_id).getD [])
        (.ok r.1.toList, setProcessed st1 slave_id (trimTracker enum r.2))

/-- Handler `register_slave` (POST /register_slave): create or refresh the
registration and initialise the processed set if absent. Returns whether
the request was accepted. -/
def register_slave (st : ServerState) (nowMs : Nat)
    (slave_id? master_id? : Option String) : Bool × ServerState :=
  if falsy slave_id? ∨ falsy master_id? then
    (false, st)
  else
    let slave_id := slave_id?.getD ""
    let master_id := master_id?.getD ""
    let st1 := setSlave st master_id slave_id
      { registered_at := nowMs, last_poll := nowMs }
    match st1.slave_processed slave_id with
    | some _ => (true, st1)
    | none => (true, setProcessed st1 slave_id [])

/-- Handler `clear_signals` (POST /clear_signals): empty the given slave's
processed set (entry kept, emptied) and delete the given master's queue. -/
def clear_signals (st : ServerState) (master_id? slave_id? : Option String) :
    ServerState :=
  let st1 :=
    if ¬ falsy slave_id? ∧ (st.slave_processed (slave_id?.getD "")).isSome then
      setProcessed st (slave_id?.getD "") []
    else st
  if ¬ falsy master_id? ∧ (st1.signals_queue (master_id?.getD "")).isSome then
    { st1 with signals_queue := fun m' =>
        if m' = master_id?.getD "" then none else st1.signals_queue m' }
  else st1

/-! ### Concrete states and requests used by witnesses and counterexamples -/

/-- A `NEW_TRADE` upload for ticket 5, symbol EURUSD, master `M`. -/
def reqNew5 : UploadRequest := ⟨some "M", some "NEW_TRADE", some 5, some "EURUSD", []⟩

/-- A `CLOSE_TRADE` upload for ticket 5, symbol EURUSD, master `M`. -/
def reqClose5 : UploadRequest := ⟨some "M", some "CLOSE_TRADE", some 5, some "EURUSD", []⟩

/-- A `MODIFY_TRADE` upload for ticket 7, symbol EURUSD, master `M`. -/
def reqMod7 : UploadRequest := ⟨some "M", some "MODIFY_TRADE", some 7, some "EURUSD", []⟩

/-- A `NEW_TRADE` upload for ticket `i`. -/
def newTradeReq (i : Nat) : UploadRequest :=
  ⟨some "M", some "NEW_TRADE", some i, some "EURUSD", []⟩

/-- 60 `NEW_TRADE` uploads with distinct tickets 0..59, ingested at times
0..59 ms, starting from the empty server. -/
def scenario60 : ServerState :=
  (List.range 60).foldl (fun st i => (upload_signal st i (newTradeReq i)).2) initialState

/-- Three concrete distinct signals used in poll scenarios. -/
def sigA : Signal := mkSignal "M" "NEW_TRADE" 1 (some "EURUSD") [] 1

/-- Second concrete signal. -/
def sigB : Signal := mkSignal "M" "NEW_TRADE" 2 (some "EURUSD") [] 2

/-- Third concrete signal. -/
def sigC : Signal := mkSignal "M" "NEW_TRADE" 3 (some "EURUSD") [] 3

/-- Master `M` holds `[sigA, sigB, sigC]`; the slave `S` is fresh. -/
def fifoSt : ServerState :=
  { signals_queue := fun m => if m = "M" then some [sigA, sigB, sigC] else none
    slaves := fun _ _ => none
    slave_processed := fun _ => none }

/-- A processed set already holding 200 ids `p0`..`p199`, inserted in that
order, none of them ids of `sigA`, `sigB`, `sigC`. -/
def trackerFull : List String := (List.range 200).map (fun i => "p" ++ Nat.repr i)

/-- Master `M` holds `[sigA, sigB, sigC]`; slave `S` has a full
200-entry processed set (of unrelated ids). -/
def fifoBreakSt : ServerState :=
  { signals_queue := fun m => if m = "M" then some [sigA, sigB, sigC] else none
    slaves := fun _ _ => none
    slave_processed := fun s => if s = "S" then some trackerFull else none }

/-- Master `M` holds `[sigA]`; slave `S` has a full 200-entry processed
set (of unrelated ids). -/
def trimSt : ServerState :=
  { signals_queue := fun m => if m = "M" then some [sigA] else none
    slaves := fun _ _ => none
    slave_processed := fun s => if s = "S" then some trackerFull else none }

/-- Master `M` holds `[sigA]`; slave `S` has already processed `sigA`. -/
def amoSt : ServerState :=
  { signals_queue := fun m => if m = "M" then some [sigA] else none
    slaves := fun _ _ => none
    slave_processed := fun s => if s = "S" then some [sigA.signal_id] else none }

/-- A signal ingested at time 0 ms. -/
def oldSig : Signal := mkSignal "M" "NEW_TRADE" 1 (some "EURUSD") [] 0

/-- Master `M` holds only `oldSig` (ingested at time 0). -/
def retentionSt : ServerState :=
  { signals_queue := fun m => if m = "M" then some [oldSig] else none
    slaves := fun _ _ => none
    slave_processed := fun _ => none }

/-- A request with no `master_id` at all. -/
def reqNoMaster : UploadRequest := ⟨none, some "NEW_TRADE", some 5, some "EURUSD", []⟩

/-- State after ingesting `reqMod7` three times, all at the same
millisecond 1000. -/
def modifyBurstSt : ServerState :=
  (upload_signal (upload_signal (upload_signal initialState 1000 reqMod7).2
    1000 reqMod7).2 1000 reqMod7).2

/-- State after one `reqNew5` ingestion at time 1000 (holds the candidate
duplicate for a second `reqNew5`). -/
def dedupSt : ServerState := (upload_signal initialState 1000 reqNew5).2

/-! ### Basic component lemmas -/

theorem setQueue_queue_self (st : ServerState) (m : String) (q : List Signal) :
    (setQueue st m q).signals_queue m = some q := by
  simp [setQueue]

theorem setQueue_queue_ne (st : ServerState) (m : String) (q : List Signal)
    (m' : String) (h : m' ≠ m) :
    (setQueue st m q).signals_queue m' = st.signals_queue m' := by
  simp [setQueue, h]

theorem setSlave_queue (st : ServerState) (m s : String) (info : SlaveInfo) :
    (setSlave st m s info).signals_queue = st.signals_queue := rfl

theorem setSlave_processed (st : ServerState) (m s : String) (info : SlaveInfo) :
    (setSlave st m s info).slave_processed = st.slave_processed := rfl

theorem setSlave_slaves_self (st : ServerState) (m s : String) (info : SlaveInfo) :
    (setSlave st m s info).slaves m s = some info := by
  simp [setSlave]

theorem setSlave_slaves_ne (st : ServerState) (m s : String) (info : SlaveInfo)
    (m' s' : String) (h : ¬ (m' = m ∧ s' = s)) :
    (setSlave st m s info).slaves m' s' = st.slaves m' s' := by
  simp only [setSlave]
  rw [if_neg h]

theorem setProcessed_queue (st : ServerState) (s : String) (tr : List String) :
    (setProcessed st s tr).signals_queue = st.signals_queue := rfl

theorem setProcessed_slaves (st : ServerState) (s : String) (tr : List String) :
    (setProcessed st s tr).slaves = st.slaves := rfl

theorem setProcessed_self (st : ServerState) (s : String) (tr : List String) :
    (setProcessed st s tr).slave_processed s = some tr := by
  simp [setProcessed]

theorem setProcessed_ne (st : ServerState) (s : String) (tr : List String)
    (s' : String) (h : s' ≠ s) :
    (setProcessed st s tr).slave_processed s' = st.slave_processed s' := by
  simp [setProcessed, h]

theorem registerTouch_queue (st : ServerState) (n : Nat) (m s : String) :
    (registerTouch st n m s).signals_queue = st.signals_queue := by
  unfold registerTouch
  cases st.slaves m s <;> rfl

theorem registerTouch_processed (st : ServerState) (n : Nat) (m s : String) :
    (registerTouch st n m s).slave_processed = st.slave_processed := by
  unfold registerTouch
  cases st.slaves m s <;> rfl

theorem registerTouch_slaves_ne (st : ServerState) (n : Nat) (m s m' s' : String)
    (h : ¬ (m' = m ∧ s' = s)) :
    (registerTouch st n m s).slaves m' s' = st.slaves m' s' := by
  unfold registerTouch
  cases st.slaves m s <;> exact setSlave_slaves_ne _ _ _ _ _ _ h

theorem registerTouch_slaves_self (st : ServerState) (n : Nat) (m s : String)
    (info : SlaveInfo) (h : st.slaves m s = some info) :
    (registerTouch st n m s).slaves m s =
      some { registered_at := info.registered_at, last_poll := n } := by
  unfold registerTouch
  rw [h]
  exact setSlave_slaves_self _ _ _ _

/-! ### cap50, findAndMark, trimTracker -/

theorem cap50_length (q : List Signal) : (cap50 q).length ≤ 50 := by
  unfold cap50
  split
  · rw [List.length_drop]
    omega
  · omega

theorem cap50_of_le (q : List Signal) (h : q.length ≤ 50) : cap50 q = q := by
  unfold cap50
  rw [if_neg (by omega)]

theorem findAndMark_nil (tr : List String) : findAndMark [] tr = (none, tr) := rfl

theorem findAndMark_cons_found (s : Signal) (rest : List Signal) (tr : List String)
    (h1 : s.signal_id ≠ "") (h2 : s.signal_id ∉ tr) :
    findAndMark (s :: rest) tr = (some s, tr ++ [s.signal_id]) := by
  simp [findAndMark, h1, h2]

theorem findAndMark_cons_skip (s : Signal) (rest : List Signal) (tr : List String)
    (h : s.signal_id = "" ∨ s.signal_id ∈ tr) :
    findAndMark (s :: rest) tr = findAndMark rest tr := by
  rcases h with h | h
  · simp [findAndMark, h]
  · simp [findAndMark, h]

theorem findAndMark_fst_not_mem (q : List Signal) (tr : List String) (s : Signal)
    (h : (findAndMark q tr).1 = some s) : s.signal_id ∉ tr := by
  induction q with
  | nil => simp [findAndMark] at h
  | cons hd rest ih =>
      unfold findAndMark at h
      split at h
      · rename_i hc
        simp only [Prod.fst] at h
        cases h
        exact hc.2
      · exact ih h

theorem findAndMark_snd_length (q : List Signal) (tr : List String) :
    ((findAndMark q tr).2).length ≤ tr.length + 1 := by
  induction q with
  | nil => simp [findAndMark]
  | cons hd rest ih =>
      unfold findAndMark
      split
      · simp
      · exact ih

theorem trimTracker_small (enum : List String → List String) (tr : List String)
    (h : tr.length ≤ 200) : trimTracker enum tr = tr := by
  unfold trimTracker
  rw [if_neg (by omega)]

theorem trimTracker_length (enum : List String → List String) (tr : List String)
    (h : tr.length ≤ 201) : (trimTracker enum tr).length ≤ 200 := by
  unfold trimTracker
  split
  · rw [List.length_drop]
    omega
  · omega

/-! ### Reduction lemmas for slave_poll -/

theorem slave_poll_eq_some (enum : List String → List String) (st : ServerState)
    (now : Nat) (S M : String) (q : List Signal)
    (hS : S ≠ "") (hM : M ≠ "") (hq : st.signals_queue M = some q) :
    slave_poll enum st now (some S) (some M) =
      (.ok (findAndMark q ((st.slave_processed S).getD [])).1.toList,
       setProcessed (registerTouch st now M S) S
         (trimTracker enum (findAndMark q ((st.slave_processed S).getD [])).2)) := by
  unfold slave_poll
  rw [if_neg (by simp [falsy, hS, hM])]
  simp only [Option.getD_some, registerTouch_queue, registerTouch_processed, hq]

theorem slave_poll_eq_none (enum : List String → List String) (st : ServerState)
    (now : Nat) (S M : String)
    (hS : S ≠ "") (hM : M ≠ "") (hq : st.signals_queue M = none) :
    slave_poll enum st now (some S) (some M) = (.ok [], registerTouch st now M S) := by
  unfold slave_poll
  rw [if_neg (by simp [falsy, hS, hM])]
  simp only [Option.getD_some, registerTouch_queue, hq]

theorem slave_poll_queue (enum : List String → List String) (st : ServerState)
    (now : Nat) (a b : Option String) :
    ((slave_poll enum st now a b).2).signals_queue = st.signals_queue := by
  unfold slave_poll
  split
  · rfl
  · simp only
    split
    · exact registerTouch_queue _ _ _ _
    · rw [setProcessed_queue, registerTouch_queue]

/-! ### Injectivity of the decimal rendering used in signal ids -/

/-- Numeric value of a decimal digit character. -/
def digitVal (c : Char) : Nat := c.toNat - 48

/-- Fold a digit list onto an accumulator, most significant first. -/
def decValAux (a : Nat) (l : List Char) : Nat :=
  l.foldl (fun b c => 10 * b + digitVal c) a

/-- `10 ^ (number of decimal digits of n)`. -/
def padPow (n : Nat) : Nat :=
  if n < 10 then 10 else 10 * padPow (n / 10)
decreasing_by
  rename_i h
  exact Nat.div_lt_self (by omega) (by omega)

theorem digitVal_digitChar (k : Nat) (h : k < 10) :
    digitVal (Nat.digitChar k) = k := by
  interval_cases k <;> rfl

theorem decValAux_cons (a : Nat) (c : Char) (l : List Char) :
    decValAux a (c :: l) = decValAux (10 * a + digitVal c) l := rfl

theorem toDigitsCore_eval (fuel : Nat) :
    ∀ (n : Nat), n < fuel → ∀ (ds : List Char) (a : Nat),
      decValAux a (Nat.toDigitsCore 10 fuel n ds) = decValAux (a * padPow n + n) ds := by
  induction fuel with
  | zero => intro n h; omega
  | succ fuel ih =>
      intro n h ds a
      show decValAux a
          (if n / 10 = 0 then Nat.digitChar (n % 10) :: ds
           else Nat.toDigitsCore 10 fuel (n / 10) (Nat.digitChar (n % 10) :: ds)) = _
      by_cases h10 : n / 10 = 0
      · have hn : n < 10 := by omega
        rw [if_pos h10, decValAux_cons, digitVal_digitChar (n % 10) (Nat.mod_lt n (by omega)),
          Nat.mod_eq_of_lt hn]
        unfold padPow
        rw [if_pos hn, Nat.mul_comm]
      · have hge : 10 ≤ n := by
          by_contra hc
          exact h10 (Nat.div_eq_of_lt (by omega))
        have hlt : n / 10 < fuel := by
          have hself : n / 10 < n := Nat.div_lt_self (by omega) (by omega)
          omega
        rw [if_neg h10, ih (n / 10) hlt, decValAux_cons,
          digitVal_digitChar (n % 10) (Nat.mod_lt n (by omega))]
        have hpad : padPow n = 10 * padPow (n / 10) := by
          conv_lhs => unfold padPow
          rw [if_neg (by omega)]
        rw [hpad]
        have hdm : 10 * (n / 10) + n % 10 = n := Nat.div_add_mod n 10
        have : a * (10 * padPow (n / 10)) = 10 * (a * padPow (n / 10)) := by ring
        rw [this]
        congr 1
        omega

theorem decVal_toDigits (n : Nat) : decValAux 0 (Nat.toDigits 10 n) = n := by
  unfold Nat.toDigits
  rw [toDigitsCore_eval (n + 1) n (Nat.lt_succ_self n) [] 0]
  simp [decValAux]

theorem nat_repr_inj {m n : Nat} (h : (Nat.repr m).data = (Nat.repr n).data) : m = n := by
  have h' : Nat.toDigits 10 m = Nat.toDigits 10 n := h
  have h2 := congrArg (decValAux 0) h'
  rwa [decVal_toDigits, decVal_toDigits] at h2

theorem mkSignal_id_inj_time (M M' act : String) (tk : Nat)
    (sym sym' : Option String) (pay pay' : List (String × String)) (t t' : Nat)
    (h : (mkSignal M act tk sym pay t).signal_id = (mkSignal M' act tk sym' pay' t').signal_id) :
    t = t' := by
  have hdata := congrArg String.data h
  simp only [mkSignal, String.data_append, List.append_assoc] at hdata
  have h1 := List.append_cancel_left hdata
  have h2 := List.append_cancel_left h1
  have h3 := List.append_cancel_left h2
  have h4 := List.append_cancel_left h3
  exact nat_repr_inj h4

/-! ### Reduction lemmas for upload_signal -/

theorem upload_signal_modify (st : ServerState) (now tk : Nat) (M act : String)
    (sym : Option String) (pay : List (String × String))
    (hM : M ≠ "") (hact : act = "MODIFY_TRADE" ∨ act = "MODIFY_PENDING") (hsym : sym ≠ none) :
    upload_signal st now ⟨some M, some act, some tk, sym, pay⟩ =
      (.received (mkSignal M act tk sym pay now).signal_id,
       setQueue st M (cap50 (((st.signals_queue M).getD []) ++
         [mkSignal M act tk sym pay now]))) := by
  rcases hact with hact | hact <;> subst hact <;>
    simp [upload_signal, falsy, hM, hsym, valid_actions]

theorem upload_signal_close (st : ServerState) (now tk : Nat) (M act : String)
    (sym : Option String) (pay : List (String × String))
    (hM : M ≠ "") (hact : act = "CLOSE_TRADE" ∨ act = "DELETE_ORDER")
    (hsym : act = "CLOSE_TRADE" → sym ≠ none) :
    upload_signal st now ⟨some M, some act, some tk, sym, pay⟩ =
      (.received (mkSignal M act tk sym pay now).signal_id,
       setQueue st M (cap50 ((((st.signals_queue M).getD []).filter
           (fun s => decide (s.master_ticket ≠ tk))) ++
         [mkSignal M act tk sym pay now]))) := by
  rcases hact with hact | hact <;> subst hact
  · have hsym' := hsym rfl
    simp [upload_signal, falsy, hM, hsym', valid_actions]
  · simp [upload_signal, falsy, hM, valid_actions]

theorem upload_signal_new_dup (st : ServerState) (now tk : Nat) (M act : String)
    (sym : Option String) (pay : List (String × String))
    (hM : M ≠ "") (hact : act = "NEW_TRADE" ∨ act = "NEW_PENDING") (hsym : sym ≠ none)
    (hdup : ∃ x ∈ (st.signals_queue M).getD [],
      x.master_ticket = tk ∧ x.action = act ∧ x.symbol = sym) :
    upload_signal st now ⟨some M, some act, some tk, sym, pay⟩ =
      (.received (mkSignal M act tk sym pay now).signal_id,
       setQueue st M (cap50 ((st.signals_queue M).getD []))) := by
  rcases hact with hact | hact <;> subst hact <;>
    simp [upload_signal, falsy, hM, hsym, valid_actions, hdup]

theorem upload_signal_new_fresh (st : ServerState) (now tk : Nat) (M act : String)
    (sym : Option String) (pay : List (String × String))
    (hM : M ≠ "") (hact : act = "NEW_TRADE" ∨ act = "NEW_PENDING") (hsym : sym ≠ none)
    (hdup : ¬ ∃ x ∈ (st.signals_queue M).getD [],
      x.master_ticket = tk ∧ x.action = act ∧ x.symbol = sym) :
    upload_signal st now ⟨some M, some act, some tk, sym, pay⟩ =
      (.received (mkSignal M act tk sym pay now).signal_id,
       setQueue st M (cap50 (((st.signals_queue M).getD []) ++
         [mkSignal M act tk sym pay now]))) := by
  rcases hact with hact | hact <;> subst hact <;>
    simp [upload_signal, falsy, hM, hsym, valid_actions, hdup]

/-! ### Claim theorems -/

/-- C2: at-most-once per slave — whenever a signal's `signal_id` is already
in slave `S`'s processed set, no poll by `S` (against any master) returns
that signal again. -/
theorem poll_at_most_once (enum : List String → List String) (st : ServerState)
    (now : Nat) (master_id? : Option String) (S : String) (X : Signal)
    (h : X.signal_id ∈ (st.slave_processed S).getD []) :
    (slave_poll enum st now (some S) master_id?).1 ≠ PollResult.ok [X] := by
  by_cases hf : falsy (some S) ∨ falsy master_id?
  · unfold slave_poll
    rw [if_pos hf]
    simp
  · have hS : S ≠ "" := by
      intro h'
      exact hf (Or.inl (Or.inr (by rw [h'])))
    obtain ⟨M, rfl⟩ : ∃ M, master_id? = some M := by
      cases hA : master_id?
      · exact absurd (Or.inr (Or.inl hA)) hf
      · exact ⟨_, rfl⟩
    have hM : M ≠ "" := by
      intro h'
      exact hf (Or.inr (Or.inr (by rw [h'])))
    cases hq : st.signals_queue M with
    | none =>
        rw [slave_poll_eq_none enum st now S M hS hM hq]
        simp
    | some q =>
        rw [slave_poll_eq_some enum st now S M q hS hM hq]
        cases hr : (findAndMark q ((st.slave_processed S).getD [])).1 with
        | none => simp [hr]
        | some s =>
            simp only [hr, Option.toList]
            intro hc
            injection hc with h1
            have hsx : s = X := by
              injection h1 with h2
            subst hsx
            exact findAndMark_fst_not_mem _ _ _ hr h

/-- C10: frame property of polling — a poll never changes any master's
queue; the only state it touches are the polling slave's processed set and
the polled `(master, slave)` registration, whose `registered_at` survives
when the pair was already registered and only `last_poll` is refreshed. -/
theorem poll_frame (enum : List String → List String) (st : ServerState)
    (now : Nat) (S M : String) (hS : S ≠ "") (hM : M ≠ "") :
    ((slave_poll enum st now (some S) (some M)).2).signals_queue = st.signals_queue
    ∧ (∀ s, s ≠ S →
        ((slave_poll enum st now (some S) (some M)).2).slave_processed s =
          st.slave_processed s)
    ∧ (∀ m s, ¬ (m = M ∧ s = S) →
        ((slave_poll enum st now (some S) (some M)).2).slaves m s = st.slaves m s)
    ∧ (∀ info, st.slaves M S = some info →
        ((slave_poll enum st now (some S) (some M)).2).slaves M S =
          some { registered_at := info.registered_at, last_poll := now }) := by
  refine ⟨slave_poll_queue enum st now (some S) (some M), ?_, ?_, ?_⟩
  · intro s hs
    cases hq : st.signals_queue M with
    | none =>
        rw [slave_poll_eq_none enum st now S M hS hM hq]
        rw [registerTouch_processed]
    | some q =>
        rw [slave_poll_eq_some enum st now S M q hS hM hq]
        rw [setProcessed_ne _ _ _ _ hs, registerTouch_processed]
  · intro m s hms
    cases hq : st.signals_queue M with
    | none =>
        rw [slave_poll_eq_none enum st now S M hS hM hq]
        exact registerTouch_slaves_ne st now M S m s hms
    | some q =>
        rw [slave_poll_eq_some enum st now S M q hS hM hq]
        have : (setProcessed (registerTouch st now M S) S
            (trimTracker enum (findAndMark q ((st.slave_processed S).getD [])).2)).slaves =
            (registerTouch st now M S).slaves := setProcessed_slaves _ _ _
        rw [this]
        exact registerTouch_slaves_ne st now M S m s hms
  · intro info hinfo
    cases hq : st.signals_queue M with
    | none =>
        rw [slave_poll_eq_none enum st now S M hS hM hq]
        exact registerTouch_slaves_self st now M S info hinfo
    | some q =>
        rw [slave_poll_eq_some enum st now S M q hS hM hq]
        have : (setProcessed (registerTouch st now M S) S
            (trimTracker enum (findAndMark q ((st.slave_processed S).getD [])).2)).slaves =
            (registerTouch st now M S).slaves := setProcessed_slaves _ _ _
        rw [this]
        exact registerTouch_slaves_self st now M S info hinfo

/-- C6 (amended): the processed-set size bound — any poll keeps every
slave's processed set at 200 ids or fewer, given it was within the bound
before; the trim keeps 200 elements of the set's (unspecified) enumeration
order, not necessarily the 200 most recently inserted. -/
theorem tracker_trim_bound (enum : List String → List String) (st : ServerState)
    (now : Nat) (slave_id? master_id? : Option String) (S : String)
    (h : ((st.slave_processed S).getD []).length ≤ 200) :
    ((((slave_poll enum st now slave_id? master_id?).2).slave_processed S).getD []).length
      ≤ 200 := by
  by_cases hf : falsy slave_id? ∨ falsy master_id?
  · unfold slave_poll
    rw [if_pos hf]
    exact h
  · obtain ⟨s, rfl⟩ : ∃ s, slave_id? = some s := by
      cases hA : slave_id?
      · exact absurd (Or.inl (Or.inl hA)) hf
      · exact ⟨_, rfl⟩
    obtain ⟨M, rfl⟩ : ∃ M, master_id? = some M := by
      cases hA : master_id?
      · exact absurd (Or.inr (Or.inl hA)) hf
      · exact ⟨_, rfl⟩
    have hs : s ≠ "" := by
      intro h'
      exact hf (Or.inl (Or.inr (by rw [h'])))
    have hM : M ≠ "" := by
      intro h'
      exact hf (Or.inr (Or.inr (by rw [h'])))
    cases hq : st.signals_queue M with
    | none =>
        rw [slave_poll_eq_none enum st now s M hs hM hq, registerTouch_processed]
        exact h
    | some q =>
        rw [slave_poll_eq_some enum st now s M q hs hM hq]
        by_cases hSs : S = s
        · subst hSs
          rw [setProcessed_self]
          apply trimTracker_length
          calc ((findAndMark q ((st.slave_processed S).getD [])).2).length
              ≤ ((st.slave_processed S).getD []).length + 1 :=
                findAndMark_snd_length _ _
            _ ≤ 201 := by omega
        · rw [setProcessed_ne _ _ _ _ hSs, registerTouch_processed]
          exact h

/-- C1 (amended): FIFO delivery — with a queue `[A, B, C]`, pairwise
distinct non-empty signal ids not yet processed by slave `S`, and `S`'s
processed set holding at most 197 ids (so the 200-cap trim cannot fire
during the sequence), four successive polls return `A`, `B`, `C`, then
nothing; and polling a master with no queue returns no signal. -/
theorem poll_fifo_delivery :
    (∀ (enum1 enum2 enum3 enum4 : List String → List String) (st : ServerState)
       (t1 t2 t3 t4 : Nat) (M S : String) (A B C : Signal) (tr : List String),
      S ≠ "" → M ≠ "" →
      st.signals_queue M = some [A, B, C] →
      (st.slave_processed S).getD [] = tr →
      tr.length ≤ 197 →
      A.signal_id ≠ "" → B.signal_id ≠ "" → C.signal_id ≠ "" →
      A.signal_id ≠ B.signal_id → A.signal_id ≠ C.signal_id → B.signal_id ≠ C.signal_id →
      A.signal_id ∉ tr → B.signal_id ∉ tr → C.signal_id ∉ tr →
      ∃ st1 st2 st3 st4,
        slave_poll enum1 st t1 (some S) (some M) = (.ok [A], st1) ∧
        slave_poll enum2 st1 t2 (some S) (some M) = (.ok [B], st2) ∧
        slave_poll enum3 st2 t3 (some S) (some M) = (.ok [C], st3) ∧
        slave_poll enum4 st3 t4 (some S) (some M) = (.ok [], st4))
    ∧ (∀ (enum : List String → List String) (st : ServerState) (now : Nat) (S M : String),
        S ≠ "" → M ≠ "" → st.signals_queue M = none →
        (slave_poll enum st now (some S) (some M)).1 = PollResult.ok []) := by
  constructor
  · intro enum1 enum2 enum3 enum4 st t1 t2 t3 t4 M S A B C tr hS hM hq htr hlen
      hA hB hC hAB hAC hBC hAtr hBtr hCtr
    have e1 := slave_poll_eq_some enum1 st t1 S M [A, B, C] hS hM hq
    rw [htr, findAndMark_cons_found A [B, C] tr hA hAtr,
      trimTracker_small enum1 _ (by simp; omega)] at e1
    simp only [Option.toList] at e1
    set st1 := setProcessed (registerTouch st t1 M S) S (tr ++ [A.signal_id]) with hst1
    have hq1 : st1.signals_queue M = some [A, B, C] := by
      rw [hst1, setProcessed_queue, registerTouch_queue]
      exact hq
    have htr1 : (st1.slave_processed S).getD [] = tr ++ [A.signal_id] := by
      rw [hst1, setProcessed_self]
      rfl
    have hAm1 : A.signal_id ∈ tr ++ [A.signal_id] := by simp
    have hBn1 : B.signal_id ∉ tr ++ [A.signal_id] := by
      simp only [List.mem_append, List.mem_singleton]
      rintro (h | h)
      · exact hBtr h
      · exact hAB h.symm
    have e2 := slave_poll_eq_some enum2 st1 t2 S M [A, B, C] hS hM hq1
    rw [htr1, findAndMark_cons_skip A [B, C] _ (Or.inr hAm1),
      findAndMark_cons_found B [C] _ hB hBn1,
      trimTracker_small enum2 _ (by simp; omega)] at e2
    simp only [Option.toList] at e2
    set st2 := setProcessed (registerTouch st1 t2 M S) S
      (tr ++ [A.signal_id] ++ [B.signal_id]) with hst2
    have hq2 : st2.signals_queue M = some [A, B, C] := by
      rw [hst2, setProcessed_queue, registerTouch_queue]
      exact hq1
    have htr2 : (st2.slave_processed S).getD [] = tr ++ [A.signal_id] ++ [B.signal_id] := by
      rw [hst2, setProcessed_self]
      rfl
    have hAm2 : A.signal_id ∈ tr ++ [A.signal_id] ++ [B.signal_id] := by simp
    have hBm2 : B.signal_id ∈ tr ++ [A.signal_id] ++ [B.signal_id] := by simp
    have hCn2 : C.signal_id ∉ tr ++ [A.signal_id] ++ [B.signal_id] := by
      simp only [List.mem_append, List.mem_singleton]
      rintro ((h | h) | h)
      · exact hCtr h
      · exact hAC h.symm
      · exact hBC h.symm
    have e3 := slave_poll_eq_some enum3 st2 t3 S M [A, B, C] hS hM hq2
    rw [htr2, findAndMark_cons_skip A [B, C] _ (Or.inr hAm2),
      findAndMark_cons_skip B [C] _ (Or.inr hBm2),
      findAndMark_cons_found C [] _ hC hCn2,
      trimTracker_small enum3 _ (by simp; omega)] at e3
    simp only [Option.toList] at e3
    set st3 := setProcessed (registerTouch st2 t3 M S) S
      (tr ++ [A.signal_id] ++ [B.signal_id] ++ [C.signal_id]) with hst3
    have hq3 : st3.signals_queue M = some [A, B, C] := by
      rw [hst3, setProcessed_queue, registerTouch_queue]
      exact hq2
    have htr3 : (st3.slave_processed S).getD [] =
        tr ++ [A.signal_id] ++ [B.signal_id] ++ [C.signal_id] := by
      rw [hst3, setProcessed_self]
      rfl
    have hAm3 : A.signal_id ∈ tr ++ [A.signal_id] ++ [B.signal_id] ++ [C.signal_id] := by
      simp
    have hBm3 : B.signal_id ∈ tr ++ [A.signal_id] ++ [B.signal_id] ++ [C.signal_id] := by
      simp
    have hCm3 : C.signal_id ∈ tr ++ [A.signal_id] ++ [B.signal_id] ++ [C.signal_id] := by
      simp
    have e4 := slave_poll_eq_some enum4 st3 t4 S M [A, B, C] hS hM hq3
    rw [htr3, findAndMark_cons_skip A [B, C] _ (Or.inr hAm3),
      findAndMark_cons_skip B [C] _ (Or.inr hBm3),
      findAndMark_cons_skip C [] _ (Or.inr hCm3), findAndMark_nil,
      trimTracker_small enum4 _ (by simp; omega)] at e4
    simp only [Option.toList] at e4
    exact ⟨st1, st2, st3,
      setProcessed (registerTouch st3 t4 M S) S
        (tr ++ [A.signal_id] ++ [B.signal_id] ++ [C.signal_id]),
      e1, e2, e3, e4⟩
  · intro enum st now S M hS hM hq
    rw [slave_poll_eq_none enum st now S M hS hM hq]

/-- C3: supersession — a `CLOSE_TRADE`/`DELETE_ORDER` ingestion first
removes every queued signal with the same `master_ticket`, then appends the
close/delete signal (the 50-cap applying afterwards); in particular
`NEW_TRADE(5)` then `CLOSE_TRADE(5)` from empty leaves exactly the close. -/
theorem upload_supersession :
    (∀ (st : ServerState) (now tk : Nat) (M act : String) (sym : Option String)
       (pay : List (String × String)),
      M ≠ "" → (act = "CLOSE_TRADE" ∨ act = "DELETE_ORDER") →
      (act = "CLOSE_TRADE" → sym ≠ none) →
      ((upload_signal st now ⟨some M, some act, some tk, sym, pay⟩).2).signals_queue M =
        some (cap50 ((((st.signals_queue M).getD []).filter
            (fun s => decide (s.master_ticket ≠ tk))) ++ [mkSignal M act tk sym pay now])))
    ∧ (((upload_signal (upload_signal initialState 1000 reqNew5).2
          2000 reqClose5).2).signals_queue "M" =
        some [mkSignal "M" "CLOSE_TRADE" 5 (some "EURUSD") [] 2000]) := by
  constructor
  · intro st now tk M act sym pay hM hact hsym
    rw [upload_signal_close st now tk M act sym pay hM hact hsym]
    exact setQueue_queue_self _ _ _
  · decide

/-- C4: dedup-append — a `NEW_TRADE`/`NEW_PENDING` ingestion leaves the
queue unchanged when an entry with the same `(master_ticket, action,
symbol)` triple is already queued, and appends the new signal otherwise; in
particular ingesting `reqNew5` twice leaves exactly one entry. -/
theorem upload_dedup_append :
    (∀ (st : ServerState) (now tk : Nat) (M act : String) (sym : Option String)
       (pay : List (String × String)),
      M ≠ "" → (act = "NEW_TRADE" ∨ act = "NEW_PENDING") → sym ≠ none →
      ((∃ x ∈ (st.signals_queue M).getD [],
          x.master_ticket = tk ∧ x.action = act ∧ x.symbol = sym) →
        ((st.signals_queue M).getD []).length ≤ 50 →
        ((upload_signal st now ⟨some M, some act, some tk, sym, pay⟩).2).signals_queue M =
          some ((st.signals_queue M).getD [])) ∧
      ((¬ ∃ x ∈ (st.signals_queue M).getD [],
          x.master_ticket = tk ∧ x.action = act ∧ x.symbol = sym) →
        ((upload_signal st now ⟨some M, some act, some tk, sym, pay⟩).2).signals_queue M =
          some (cap50 (((st.signals_queue M).getD []) ++ [mkSignal M act tk sym pay now]))))
    ∧ (((upload_signal (upload_signal initialState 1000 reqNew5).2
          2000 reqNew5).2).signals_queue "M" =
        some [mkSignal "M" "NEW_TRADE" 5 (some "EURUSD") [] 1000]) := by
  constructor
  · intro st now tk M act sym pay hM hact hsym
    constructor
    · intro hdup hlen
      rw [upload_signal_new_dup st now tk M act sym pay hM hact hsym hdup,
        cap50_of_le _ hlen]
      exact setQueue_queue_self _ _ _
    · intro hdup
      rw [upload_signal_new_fresh st now tk M act sym pay hM hact hsym hdup]
      exact setQueue_queue_self _ _ _
  · decide

/-- C7 (amended): always-append for MODIFY — three `MODIFY_TRADE`
ingestions for the same ticket append three entries, and their signal ids
are pairwise distinct provided the three ingestion-time milliseconds are
pairwise distinct (ids coincide when the milliseconds coincide). -/
theorem upload_modify_distinct (st : ServerState) (t1 t2 t3 tk : Nat) (M : String)
    (sym : Option String) (pay : List (String × String))
    (hM : M ≠ "") (hsym : sym ≠ none)
    (hlen : ((st.signals_queue M).getD []).length ≤ 47)
    (h12 : t1 ≠ t2) (h13 : t1 ≠ t3) (h23 : t2 ≠ t3) :
    (((upload_signal (upload_signal (upload_signal st t1
          ⟨some M, some "MODIFY_TRADE", some tk, sym, pay⟩).2 t2
          ⟨some M, some "MODIFY_TRADE", some tk, sym, pay⟩).2 t3
          ⟨some M, some "MODIFY_TRADE", some tk, sym, pay⟩).2).signals_queue M =
        some (((st.signals_queue M).getD []) ++
          [mkSignal M "MODIFY_TRADE" tk sym pay t1,
           mkSignal M "MODIFY_TRADE" tk sym pay t2,
           mkSignal M "MODIFY_TRADE" tk sym pay t3]))
      ∧ (mkSignal M "MODIFY_TRADE" tk sym pay t1).signal_id ≠
          (mkSignal M "MODIFY_TRADE" tk sym pay t2).signal_id
      ∧ (mkSignal M "MODIFY_TRADE" tk sym pay t1).signal_id ≠
          (mkSignal M "MODIFY_TRADE" tk sym pay t3).signal_id
      ∧ (mkSignal M "MODIFY_TRADE" tk sym pay t2).signal_id ≠
          (mkSignal M "MODIFY_TRADE" tk sym pay t3).signal_id := by
  refine ⟨?_, fun h => h12 (mkSignal_id_inj_time M M "MODIFY_TRADE" tk sym sym pay pay t1 t2 h),
    fun h => h13 (mkSignal_id_inj_time M M "MODIFY_TRADE" tk sym sym pay pay t1 t3 h),
    fun h => h23 (mkSignal_id_inj_time M M "MODIFY_TRADE" tk sym sym pay pay t2 t3 h)⟩
  have e1 := upload_signal_modify st t1 tk M "MODIFY_TRADE" sym pay hM (Or.inl rfl) hsym
  rw [cap50_of_le _ (by simp; omega)] at e1
  have h1 : (upload_signal st t1 ⟨some M, some "MODIFY_TRADE", some tk, sym, pay⟩).2 =
      setQueue st M (((st.signals_queue M).getD []) ++
        [mkSignal M "MODIFY_TRADE" tk sym pay t1]) := by
    rw [e1]
  rw [h1]
  have hg1 : ((setQueue st M (((st.signals_queue M).getD []) ++
      [mkSignal M "MODIFY_TRADE" tk sym pay t1])).signals_queue M).getD [] =
      ((st.signals_queue M).getD []) ++ [mkSignal M "MODIFY_TRADE" tk sym pay t1] := by
    rw [setQueue_queue_self]
    rfl
  have e2 := upload_signal_modify (setQueue st M (((st.signals_queue M).getD []) ++
      [mkSignal M "MODIFY_TRADE" tk sym pay t1])) t2 tk M "MODIFY_TRADE" sym pay hM
      (Or.inl rfl) hsym
  rw [hg1, cap50_of_le _ (by simp; omega)] at e2
  have h2 : (upload_signal (setQueue st M (((st.signals_queue M).getD []) ++
      [mkSignal M "MODIFY_TRADE" tk sym pay t1])) t2
      ⟨some M, some "MODIFY_TRADE", some tk, sym, pay⟩).2 =
      setQueue (setQueue st M (((st.signals_queue M).getD []) ++
        [mkSignal M "MODIFY_TRADE" tk sym pay t1])) M
        ((((st.signals_queue M).getD []) ++ [mkSignal M "MODIFY_TRADE" tk sym pay t1]) ++
          [mkSignal M "MODIFY_TRADE" tk sym pay t2]) := by
    rw [e2]
  rw [h2]
  have hg2 : ((setQueue (setQueue st M (((st.signals_queue M).getD []) ++
      [mkSignal M "MODIFY_TRADE" tk sym pay t1])) M
      ((((st.signals_queue M).getD []) ++ [mkSignal M "MODIFY_TRADE" tk sym pay t1]) ++
        [mkSignal M "MODIFY_TRADE" tk sym pay t2])).signals_queue M).getD [] =
      (((st.signals_queue M).getD []) ++ [mkSignal M "MODIFY_TRADE" tk sym pay t1]) ++
        [mkSignal M "MODIFY_TRADE" tk sym pay t2] := by
    rw [setQueue_queue_self]
    rfl
  have e3 := upload_signal_modify (setQueue (setQueue st M
      (((st.signals_queue M).getD []) ++ [mkSignal M "MODIFY_TRADE" tk sym pay t1])) M
      ((((st.signals_queue M).getD []) ++ [mkSignal M "MODIFY_TRADE" tk sym pay t1]) ++
        [mkSignal M "MODIFY_TRADE" tk sym pay t2])) t3 tk M "MODIFY_TRADE" sym pay hM
      (Or.inl rfl) hsym
  rw [hg2, cap50_of_le _ (by simp; omega)] at e3
  have h3 := congrArg (fun p => (Prod.snd p).signals_queue M) e3
  simp only at h3
  rw [h3, setQueue_queue_self]
  congr 1
  simp

/-- Helper for the capacity claim: after any `upload_signal`, the queue of
any master is either untouched or capped. -/
theorem upload_signal_queue_cases (st : ServerState) (now : Nat) (req : UploadRequest)
    (M : String) :
    ((upload_signal st now req).2).signals_queue M = st.signals_queue M ∨
    ∃ q1, ((upload_signal st now req).2).signals_queue M = some (cap50 q1) := by
  unfold upload_signal
  dsimp only
  split
  · exact Or.inl rfl
  · split
    · exact Or.inl rfl
    · split
      · exact Or.inl rfl
      · split
        · exact Or.inl rfl
        · by_cases hMm : M = req.master_id.getD ""
          · subst hMm
            exact Or.inr ⟨_, setQueue_queue_self _ _ _⟩
          · exact Or.inl (setQueue_queue_ne _ _ _ _ hMm)

/-- C5: capacity — ingestion and the sweeper both preserve the bound of 50
entries per master queue, and 60 distinct-ticket `NEW_TRADE` ingestions
from empty leave exactly the 50 most recently ingested signals. -/
theorem queue_capacity :
    (∀ (st : ServerState) (now : Nat) (req : UploadRequest) (M : String) (q : List Signal),
      (∀ q0, st.signals_queue M = some q0 → q0.length ≤ 50) →
      ((upload_signal st now req).2).signals_queue M = some q → q.length ≤ 50)
    ∧ (∀ (st : ServerState) (now : Nat) (M : String) (q : List Signal),
      (∀ q0, st.signals_queue M = some q0 → q0.length ≤ 50) →
      ((cleanup_old_signals now st).signals_queue M = some q → q.length ≤ 50))
    ∧ (scenario60.signals_queue "M" =
        some (((List.range 60).drop 10).map
          (fun i => mkSignal "M" "NEW_TRADE" i (some "EURUSD") [] i))) := by
  refine ⟨?_, ?_, ?_⟩
  · intro st now req M q hinv hpost
    rcases upload_signal_queue_cases st now req M with hcase | ⟨q1, hcase⟩
    · rw [hcase] at hpost
      exact hinv q hpost
    · rw [hcase] at hpost
      injection hpost with h1
      rw [← h1]
      exact cap50_length q1
  · intro st now M q hinv hpost
    cases hq : st.signals_queue M with
    | none =>
        have hrw : (cleanup_old_signals now st).signals_queue M = none := by
          show (match st.signals_queue M with
            | none => none
            | some q1 =>
                let q2 := q1.filter (keepSignal now)
                if q2.isEmpty then none else some q2) = none
          rw [hq]
        rw [hrw] at hpost
        cases hpost
    | some q0 =>
        have hrw : (cleanup_old_signals now st).signals_queue M =
            if (q0.filter (keepSignal now)).isEmpty then none
            else some (q0.filter (keepSignal now)) := by
          show (match st.signals_queue M with
            | none => none
            | some q1 =>
                let q2 := q1.filter (keepSignal now)
                if q2.isEmpty then none else some q2) = _
          rw [hq]
        rw [hrw] at hpost
        split at hpost
        · cases hpost
        · injection hpost with h1
          rw [← h1]
          calc (q0.filter (keepSignal now)).length
              ≤ q0.length := List.length_filter_le _ _
            _ ≤ 50 := hinv q0 hq
  · decide

/-- Helper for validation: an unrecognised action is rejected before any
state is touched. -/
theorem upload_signal_invalid_action (st : ServerState) (now : Nat) (req : UploadRequest)
    (a : String)
    (h1 : ¬ (falsy req.master_id ∨ falsy req.action ∨ req.master_ticket = none))
    (ha : req.action = some a) (hnv : a ∉ valid_actions) :
    upload_signal st now req = (.error ("Invalid action: " ++ a), st) := by
  unfold upload_signal
  rw [if_neg h1]
  simp only [ha, Option.getD_some]
  rw [if_pos hnv]

/-- Helper for validation: a missing symbol for a symbol-requiring action is
rejected before any state is touched. -/
theorem upload_signal_missing_symbol (st : ServerState) (now : Nat) (req : UploadRequest)
    (a : String)
    (h1 : ¬ (falsy req.master_id ∨ falsy req.action ∨ req.master_ticket = none))
    (ha : req.action = some a) (hv : a ∈ valid_actions)
    (hex : a ∉ ["DELETE_ORDER", "INIT_TEST", "HEARTBEAT"]) (hsymn : req.symbol = none) :
    upload_signal st now req = (.error ("Missing symbol for action " ++ a), st) := by
  unfold upload_signal
  rw [if_neg h1]
  simp only [ha, Option.getD_some]
  rw [if_neg (show ¬ a ∉ valid_actions from fun hc => hc hv)]
  rw [if_pos ⟨hex, hsymn⟩]

/-- C9: validation rejects without mutation — a request missing
`master_id`, `action` or `master_ticket`, carrying an unrecognised action,
or missing `symbol` for an action that requires it, is answered with an
error and leaves the entire server state exactly as it was. -/
theorem upload_validation_no_mutation (st : ServerState) (now : Nat) (req : UploadRequest)
    (h : req.master_id = none ∨ req.action = none ∨ req.master_ticket = none ∨
      (∃ a, req.action = some a ∧ a ∉ valid_actions) ∨
      (∃ a, req.action = some a ∧ a ∉ ["DELETE_ORDER", "INIT_TEST", "HEARTBEAT"] ∧
        req.symbol = none)) :
    ∃ msg, upload_signal st now req = (.error msg, st) := by
  by_cases h1 : falsy req.master_id ∨ falsy req.action ∨ req.master_ticket = none
  · refine ⟨"Missing master_id, action, or master_ticket", ?_⟩
    unfold upload_signal
    rw [if_pos h1]
  · rcases h with h | h | h | ⟨a, ha, hnv⟩ | ⟨a, ha, hex, hsymn⟩
    · exact absurd (Or.inl (Or.inl h)) h1
    · exact absurd (Or.inr (Or.inl (Or.inl h))) h1
    · exact absurd (Or.inr (Or.inr h)) h1
    · exact ⟨_, upload_signal_invalid_action st now req a h1 ha hnv⟩
    · by_cases hv : a ∈ valid_actions
      · exact ⟨_, upload_signal_missing_symbol st now req a h1 ha hv hex hsymn⟩
      · exact ⟨_, upload_signal_invalid_action st now req a h1 ha hv⟩

/-- C8: the sweeper keeps a 9-minute-old signal and removes an
11-minute-old one, but KEEPS a signal that is 24 hours and 1 minute old:
`timedelta.seconds` is the wrapped whole-seconds component, not the total
age, so entries older than a whole day can survive every sweep. -/
theorem cleanup_wraparound :
    (cleanup_old_signals 540000 retentionSt).signals_queue "M" = some [oldSig]
    ∧ (cleanup_old_signals 660000 retentionSt).signals_queue "M" = none
    ∧ (cleanup_old_signals 86460000 retentionSt).signals_queue "M" = some [oldSig] := by
  refine ⟨by decide, by decide, by decide⟩

/-! ### Counterexamples and witnesses -/

/-- C1 counterexample: slave `S` has 200 processed ids, none of them ids of
the queued `[sigA, sigB, sigC]`, yet with a set-enumeration that lists the
fresh id first the trim evicts `sigA`'s id right after the first poll, and
the second poll returns `sigA` again instead of `sigB`. -/
theorem poll_fifo_break_on_trim :
    ((fifoBreakSt.slave_processed "S").getD []).length = 200
    ∧ sigA.signal_id ∉ (fifoBreakSt.slave_processed "S").getD []
    ∧ sigB.signal_id ∉ (fifoBreakSt.slave_processed "S").getD []
    ∧ sigC.signal_id ∉ (fifoBreakSt.slave_processed "S").getD []
    ∧ (slave_poll List.reverse fifoBreakSt 1 (some "S") (some "M")).1 = PollResult.ok [sigA]
    ∧ (slave_poll List.reverse
        ((slave_poll List.reverse fifoBreakSt 1 (some "S") (some "M")).2)
        2 (some "S") (some "M")).1 = PollResult.ok [sigA] := by
  refine ⟨by decide, by decide, by decide, by decide, by decide, by decide⟩

/-- C1 witness for the amended theorem, at a fresh slave and the concrete
queue `[sigA, sigB, sigC]`, plus a poll against a master with no queue. -/
theorem poll_fifo_delivery_witness :
    (∃ st1 st2 st3 st4,
      slave_poll id fifoSt 1 (some "S") (some "M") = (.ok [sigA], st1) ∧
      slave_poll id st1 2 (some "S") (some "M") = (.ok [sigB], st2) ∧
      slave_poll id st2 3 (some "S") (some "M") = (.ok [sigC], st3) ∧
      slave_poll id st3 4 (some "S") (some "M") = (.ok [], st4))
    ∧ (slave_poll id initialState 9 (some "S") (some "X")).1 = PollResult.ok [] :=
  ⟨poll_fifo_delivery.1 id id id id fifoSt 1 2 3 4 "M" "S" sigA sigB sigC []
      (by decide) (by decide) (by decide) (by decide) (by decide) (by decide)
      (by decide) (by decide) (by decide) (by decide) (by decide) (by decide)
      (by decide) (by decide),
    poll_fifo_delivery.2 id initialState 9 "S" "X" (by decide) (by decide) rfl⟩

/-- C2 witness: slave `S` has already processed `sigA`; polling again never
returns `sigA`. -/
theorem poll_at_most_once_witness :
    (slave_poll id amoSt 5 (some "S") (some "M")).1 ≠ PollResult.ok [sigA] :=
  poll_at_most_once id amoSt 5 (some "M") "S" sigA (by decide)

/-- C10 witness: the frame property at a concrete poll. -/
theorem poll_frame_witness :
    ((slave_poll id fifoSt 7 (some "S") (some "M")).2).signals_queue = fifoSt.signals_queue
    ∧ (∀ s, s ≠ "S" →
        ((slave_poll id fifoSt 7 (some "S") (some "M")).2).slave_processed s =
          fifoSt.slave_processed s)
    ∧ (∀ m s, ¬ (m = "M" ∧ s = "S") →
        ((slave_poll id fifoSt 7 (some "S") (some "M")).2).slaves m s = fifoSt.slaves m s)
    ∧ (∀ info, fifoSt.slaves "M" "S" = some info →
        ((slave_poll id fifoSt 7 (some "S") (some "M")).2).slaves "M" "S" =
          some { registered_at := info.registered_at, last_poll := 7 }) :=
  poll_frame id fifoSt 7 "S" "M" (by decide) (by decide)

/-- C6 counterexample: after slave `S` (tracker `p0..p199`, in that
insertion order) polls `sigA`, a reverse set-enumeration makes the trim
keep the oldest-inserted id `p0` and evict the newest-inserted id (the one
of `sigA` itself) — the opposite of most-recent-200-by-insertion-order. -/
theorem tracker_trim_not_insertion_order :
    (slave_poll List.reverse trimSt 5 (some "S") (some "M")).1 = PollResult.ok [sigA]
    ∧ "p0" ∈
        (((slave_poll List.reverse trimSt 5 (some "S") (some "M")).2).slave_processed
          "S").getD []
    ∧ sigA.signal_id ∉
        (((slave_poll List.reverse trimSt 5 (some "S") (some "M")).2).slave_processed
          "S").getD [] := by
  refine ⟨by decide, by decide, by decide⟩

/-- C6 witness for the amended bound, at a concrete over-full poll. -/
theorem tracker_trim_bound_witness :
    ((((slave_poll id trimSt 5 (some "S") (some "M")).2).slave_processed "S").getD
      []).length ≤ 200 :=
  tracker_trim_bound id trimSt 5 (some "S") (some "M") "S" (by decide)

/-- C3 witness: a `DELETE_ORDER` without symbol supersedes ticket 5. -/
theorem upload_supersession_witness :
    ((upload_signal initialState 42
        ⟨some "M", some "DELETE_ORDER", some 5, none, []⟩).2).signals_queue "M" =
      some (cap50 ((((initialState.signals_queue "M").getD []).filter
          (fun s => decide (s.master_ticket ≠ 5))) ++
        [mkSignal "M" "DELETE_ORDER" 5 none [] 42])) :=
  upload_supersession.1 initialState 42 5 "M" "DELETE_ORDER" none [] (by decide)
    (Or.inr rfl) (fun h => absurd h (by decide))

/-- C4 witness: the duplicate branch at a state already holding the triple,
and the fresh branch at the empty state. -/
theorem upload_dedup_append_witness :
    (((upload_signal dedupSt 2000
        ⟨some "M", some "NEW_TRADE", some 5, some "EURUSD", []⟩).2).signals_queue "M" =
      some ((dedupSt.signals_queue "M").getD []))
    ∧ (((upload_signal initialState 1000
        ⟨some "M", some "NEW_TRADE", some 5, some "EURUSD", []⟩).2).signals_queue "M" =
      some (cap50 (((initialState.signals_queue "M").getD []) ++
        [mkSignal "M" "NEW_TRADE" 5 (some "EURUSD") [] 1000]))) :=
  ⟨(upload_dedup_append.1 dedupSt 2000 5 "M" "NEW_TRADE" (some "EURUSD") []
      (by decide) (Or.inl rfl) (by decide)).1 (by decide) (by decide),
    (upload_dedup_append.1 initialState 1000 5 "M" "NEW_TRADE" (some "EURUSD") []
      (by decide) (Or.inl rfl) (by decide)).2 (by decide)⟩

/-- C7 counterexample: three `MODIFY_TRADE(7)` ingestions in the same
millisecond yield three queued entries whose signal ids all coincide — the
ids are not unique per signal. -/
theorem signal_id_collision_same_ms :
    modifyBurstSt.signals_queue "M" =
      some [mkSignal "M" "MODIFY_TRADE" 7 (some "EURUSD") [] 1000,
            mkSignal "M" "MODIFY_TRADE" 7 (some "EURUSD") [] 1000,
            mkSignal "M" "MODIFY_TRADE" 7 (some "EURUSD") [] 1000]
    ∧ ¬ (((modifyBurstSt.signals_queue "M").getD []).map Signal.signal_id).Nodup := by
  refine ⟨by decide, by decide⟩

/-- C7 witness for the amended theorem, at times 1000, 1001, 1002. -/
theorem upload_modify_distinct_witness :
    (((upload_signal (upload_signal (upload_signal initialState 1000
          ⟨some "M", some "MODIFY_TRADE", some 7, some "EURUSD", []⟩).2 1001
          ⟨some "M", some "MODIFY_TRADE", some 7, some "EURUSD", []⟩).2 1002
          ⟨some "M", some "MODIFY_TRADE", some 7, some "EURUSD", []⟩).2).signals_queue "M" =
        some (((initialState.signals_queue "M").getD []) ++
          [mkSignal "M" "MODIFY_TRADE" 7 (some "EURUSD") [] 1000,
           mkSignal "M" "MODIFY_TRADE" 7 (some "EURUSD") [] 1001,
           mkSignal "M" "MODIFY_TRADE" 7 (some "EURUSD") [] 1002]))
      ∧ (mkSignal "M" "MODIFY_TRADE" 7 (some "EURUSD") [] 1000).signal_id ≠
          (mkSignal "M" "MODIFY_TRADE" 7 (some "EURUSD") [] 1001).signal_id
      ∧ (mkSignal "M" "MODIFY_TRADE" 7 (some "EURUSD") [] 1000).signal_id ≠
          (mkSignal "M" "MODIFY_TRADE" 7 (some "EURUSD") [] 1002).signal_id
      ∧ (mkSignal "M" "MODIFY_TRADE" 7 (some "EURUSD") [] 1001).signal_id ≠
          (mkSignal "M" "MODIFY_TRADE" 7 (some "EURUSD") [] 1002).signal_id :=
  upload_modify_distinct initialState 1000 1001 1002 7 "M" (some "EURUSD") []
    (by decide) (by decide) (by decide) (by decide) (by decide) (by decide)

/-- C5 witness: the upload bound at a first ingestion, and the sweeper
bound at a concrete sweep. -/
theorem queue_capacity_witness :
    ([mkSignal "M" "NEW_TRADE" 5 (some "EURUSD") [] 1000].length ≤ 50)
    ∧ ([oldSig].length ≤ 50) :=
  ⟨queue_capacity.1 initialState 1000 reqNew5 "M"
      [mkSignal "M" "NEW_TRADE" 5 (some "EURUSD") [] 1000]
      (fun q0 h => by simp [initialState] at h) (by decide),
    queue_capacity.2.1 retentionSt 540000 "M" [oldSig]
      (fun q0 h => by
        simp [retentionSt] at h
        subst h
        decide)
      (by decide)⟩

/-- C9 witness: a request with no `master_id` is rejected and the state is
untouched. -/
theorem upload_validation_no_mutation_witness :
    ∃ msg, upload_signal initialState 0 reqNoMaster = (.error msg, initialState) :=
  upload_validation_no_mutation initialState 0 reqNoMaster (Or.inl rfl)
